import Mathlib

/-!
Shallow embedding of the vitakube consumer (Go) for verification of its
natural-language specification.

Embedded components:
* `buffer.RingBuffer` (`Add` / `Flush` / `ReadAll`)
* `ingest.HandleIngest` (UID resolution, pvc/pod classification, regexes)
* `store.SQLiteStore` upserts (relational semantics of the upsert SQL)
* `syncer.ResourceSyncer` (caches, `getNamespaceID`, `getNodeID`,
  `syncNode`, `syncPod`)
* `api.handleLiveMetrics` (live view over the ring window)

Go `float64` values are carried as `Float` (they are only moved, never
computed on); `time.Time` and `int64` are carried as `Int`; fallible
store calls are modelled with an explicit fault schedule consumed one
entry per statement (an empty schedule means every statement succeeds).
-/

namespace Vitakube

/-- A sample held in the ring window (Go struct `buffer.Metric`). -/
structure Metric where
  time : Int
  resourceID : Int
  type : String
  value : Float
deriving Repr

/-- Go struct `buffer.RingBuffer`: a slice of metrics plus a capacity. -/
structure RingBuffer where
  metrics : List Metric
  maxSize : Nat
deriving Repr

/-- Go `buffer.NewRingBuffer`: empty slice, given capacity. -/
def NewRingBuffer (maxSize : Nat) : RingBuffer :=
  { metrics := [], maxSize := maxSize }

/-- Go `(*RingBuffer).Add`: if occupancy has reached `maxSize` the new
sample is dropped silently, otherwise it is appended. -/
def RingBuffer.Add (rb : RingBuffer) (m : Metric) : RingBuffer :=
  if rb.maxSize ≤ rb.metrics.length then rb
  else { rb with metrics := rb.metrics ++ [m] }

/-- Go `(*RingBuffer).Flush`: swap the backing slice for a fresh empty
one with the same capacity, returning the old contents. -/
def RingBuffer.Flush (rb : RingBuffer) : List Metric × RingBuffer :=
  (rb.metrics, { metrics := [], maxSize := rb.maxSize })

/-- Go `(*RingBuffer).ReadAll`: defensive copy of the current contents. -/
def RingBuffer.ReadAll (rb : RingBuffer) : List Metric :=
  rb.metrics

/-- A sequence of `Add` calls (no intervening `Flush`). -/
def addAll (rb : RingBuffer) (ms : List Metric) : RingBuffer :=
  ms.foldl RingBuffer.Add rb

theorem addAll_maxSize (rb : RingBuffer) (ms : List Metric) :
    (addAll rb ms).maxSize = rb.maxSize := by
  induction ms generalizing rb with
  | nil => rfl
  | cons m ms ih =>
    simp only [addAll, List.foldl_cons]
    rw [show (List.foldl RingBuffer.Add (rb.Add m) ms) = addAll (rb.Add m) ms from rfl,
      ih]
    unfold RingBuffer.Add
    split <;> rfl

theorem addAll_metrics (ms : List Metric) (rb : RingBuffer)
    (h : rb.metrics.length ≤ rb.maxSize) :
    (addAll rb ms).metrics = rb.metrics ++ ms.take (rb.maxSize - rb.metrics.length) := by
  induction ms generalizing rb with
  | nil => simp [addAll]
  | cons m ms ih =>
    simp only [addAll, List.foldl_cons]
    by_cases hfull : rb.maxSize ≤ rb.metrics.length
    · have hdrop : rb.Add m = rb := by
        unfold RingBuffer.Add; simp [hfull]
      rw [hdrop]
      have heq : rb.maxSize - rb.metrics.length = 0 := by omega
      rw [show (List.foldl RingBuffer.Add rb ms) = addAll rb ms from rfl, ih rb h, heq]
      simp [heq]
    · have hlt : rb.metrics.length < rb.maxSize := by omega
      have hadd : rb.Add m = { rb with metrics := rb.metrics ++ [m] } := by
        unfold RingBuffer.Add; simp [hfull]
      rw [hadd]
      have h2 : ({ rb with metrics := rb.metrics ++ [m] } : RingBuffer).metrics.length
          ≤ ({ rb with metrics := rb.metrics ++ [m] } : RingBuffer).maxSize := by
        simp; omega
      rw [show (List.foldl RingBuffer.Add { rb with metrics := rb.metrics ++ [m] } ms)
            = addAll { rb with metrics := rb.metrics ++ [m] } ms from rfl, ih _ h2]
      simp only [List.append_assoc, List.singleton_append]
      have h3 : rb.maxSize - rb.metrics.length = (rb.maxSize - (rb.metrics.length + 1)) + 1 := by
        omega
      rw [h3, List.take_succ_cons]
      simp

/-- C4. Ring bound with drop-newest: starting from a fresh ring of
capacity `N`, any sequence of `Add` calls (no intervening flush) keeps
occupancy at or below `N`; an `Add` on a buffer whose occupancy has
reached its capacity is a no-op; and `ReadAll` returns exactly the first
`N` samples of the sequence, in insertion order. -/
theorem ring_bound_drop_newest (N : Nat) (ms : List Metric) :
    (addAll (NewRingBuffer N) ms).ReadAll = ms.take N ∧
    (addAll (NewRingBuffer N) ms).metrics.length ≤ N ∧
    (∀ (rb : RingBuffer) (m : Metric),
      rb.maxSize ≤ rb.metrics.length → rb.Add m = rb) := by
  have hread : (addAll (NewRingBuffer N) ms).ReadAll = ms.take N := by
    have h := addAll_metrics ms (NewRingBuffer N) (by simp [NewRingBuffer])
    simpa [RingBuffer.ReadAll, NewRingBuffer] using h
  refine ⟨hread, ?_, ?_⟩
  · rw [show (addAll (NewRingBuffer N) ms).metrics
        = (addAll (NewRingBuffer N) ms).ReadAll from rfl, hread]
    exact List.length_take_le N ms
  · intro rb m hfull
    unfold RingBuffer.Add
    simp [hfull]

/-- Six concrete samples for the overflow scenario (S5). -/
def s5Samples : List Metric :=
  [⟨1, 1, "cpu_ms", 1.0⟩, ⟨2, 1, "cpu_ms", 2.0⟩, ⟨3, 1, "cpu_ms", 3.0⟩,
   ⟨4, 1, "cpu_ms", 4.0⟩, ⟨5, 1, "cpu_ms", 5.0⟩, ⟨6, 1, "cpu_ms", 6.0⟩]

/-- Witness for C4: capacity 4 with 6 adds yields exactly the first 4 in
insertion order, and an `Add` on the full buffer is dropped. -/
theorem ring_bound_drop_newest_witness :
    (addAll (NewRingBuffer 4) s5Samples).ReadAll = s5Samples.take 4 ∧
    (addAll (NewRingBuffer 4) s5Samples).metrics.length ≤ 4 ∧
    ((addAll (NewRingBuffer 4) s5Samples).maxSize
        ≤ (addAll (NewRingBuffer 4) s5Samples).metrics.length ∧
      (addAll (NewRingBuffer 4) s5Samples).Add ⟨7, 1, "cpu_ms", 7.0⟩
        = addAll (NewRingBuffer 4) s5Samples) := by
  have h := ring_bound_drop_newest 4 s5Samples
  have hfull : (addAll (NewRingBuffer 4) s5Samples).maxSize
      ≤ (addAll (NewRingBuffer 4) s5Samples).metrics.length := by
    rw [show (addAll (NewRingBuffer 4) s5Samples).metrics
        = (addAll (NewRingBuffer 4) s5Samples).ReadAll from rfl, h.1]
    rw [addAll_maxSize]
    rfl
  exact ⟨h.1, h.2.1, hfull, h.2.2 _ _ hfull⟩

/-- C5. Flush swap semantics: `Flush` returns exactly the buffered
samples (equal to the immediately preceding `ReadAll`), the post-flush
buffer is empty with the same capacity, and every sample buffered before
the flush appears in the flush return and not in the post-flush buffer. -/
theorem flush_swap (rb : RingBuffer) :
    (rb.Flush).1 = rb.ReadAll ∧
    (rb.Flush).2.metrics = [] ∧
    (rb.Flush).2.maxSize = rb.maxSize ∧
    (∀ m : Metric, m ∈ rb.ReadAll →
      m ∈ (rb.Flush).1 ∧ m ∉ (rb.Flush).2.metrics) := by
  refine ⟨rfl, rfl, rfl, ?_⟩
  intro m hm
  exact ⟨hm, by simp [RingBuffer.Flush]⟩

/-- Witness for C5 at a concrete one-element buffer. -/
theorem flush_swap_witness :
    ((⟨1, 1, "cpu_ms", 1.0⟩ : Metric)
        ∈ (RingBuffer.mk [⟨1, 1, "cpu_ms", 1.0⟩] 4).ReadAll) ∧
    ((⟨1, 1, "cpu_ms", 1.0⟩ : Metric)
        ∈ ((RingBuffer.mk [⟨1, 1, "cpu_ms", 1.0⟩] 4).Flush).1 ∧
      (⟨1, 1, "cpu_ms", 1.0⟩ : Metric)
        ∉ ((RingBuffer.mk [⟨1, 1, "cpu_ms", 1.0⟩] 4).Flush).2.metrics) := by
  have hm : (⟨1, 1, "cpu_ms", 1.0⟩ : Metric)
      ∈ (RingBuffer.mk [⟨1, 1, "cpu_ms", 1.0⟩] 4).ReadAll :=
    List.mem_singleton.mpr rfl
  exact ⟨hm, (flush_swap (RingBuffer.mk [⟨1, 1, "cpu_ms", 1.0⟩] 4)).2.2.2 _ hm⟩

/-! ### Ingestion endpoint (`ingest/server.go`) -/

/-- Go struct `ingest.RawMetric` (JSON fields of an ingested metric);
absent optional JSON fields decode to the empty string. -/
structure RawMetric where
  type : String
  pod_id : String
  pod_uid : String
  volume : String
  container_id : String
  key : String
  value : Float
  ts : Int
deriving Repr

/-- Does `sub` occur as a contiguous run anywhere in the input? -/
def containsRun (sub : List Char) : List Char → Bool
  | [] => sub.isEmpty
  | c :: rest => sub.isPrefixOf (c :: rest) || containsRun sub rest

/-- Go `strings.Contains s sub`. -/
def strContains (s sub : String) : Bool :=
  containsRun sub.data s.data

/-- Character class `[0-9a-f]` of `pvcVolumeRegex`. -/
def isHexLower (c : Char) : Bool :=
  c.isDigit || (decide ('a' ≤ c) && decide (c ≤ 'f'))

/-- Consume exactly `n` characters of class `[0-9a-f]`, returning the
rest of the input; `none` if the input does not start with such a run. -/
def hexRun : Nat → List Char → Option (List Char)
  | 0, cs => some cs
  | _ + 1, [] => none
  | n + 1, c :: cs => if isHexLower c then hexRun n cs else none

/-- The body of `pvcVolumeRegex` after the literal `pvc-`: five
lower-hex groups of lengths 8-4-4-4-12 joined by hyphens, consuming the
whole input (the regex is anchored on both sides). -/
def uuidShape (cs : List Char) : Bool :=
  match hexRun 8 cs with
  | some ('-' :: r1) =>
    match hexRun 4 r1 with
    | some ('-' :: r2) =>
      match hexRun 4 r2 with
      | some ('-' :: r3) =>
        match hexRun 4 r3 with
        | some ('-' :: r4) =>
          match hexRun 12 r4 with
          | some [] => true
          | _ => false
        | _ => false
      | _ => false
    | _ => false
  | _ => false

/-- Go `pvcVolumeRegex.FindStringSubmatch` at character-list level: the
anchored regular expression `pvc-(uuid)` with the 8-4-4-4-12 lower-hex
uuid shape; on a match the returned list is the captured group. -/
def pvcVolumeMatchList (cs : List Char) : Option (List Char) :=
  if ['p', 'v', 'c', '-'].isPrefixOf cs then
    let rest := cs.drop 4
    if uuidShape rest then some rest else none
  else none

/-- Go `pvcVolumeRegex.FindStringSubmatch` on a string. -/
def pvcVolumeMatch (s : String) : Option String :=
  (pvcVolumeMatchList s.data).map String.mk

/-- Character class `[0-9a-fA-F_]` of `podSliceRegex`. -/
def isPodIdChar (c : Char) : Bool :=
  c.isDigit || (decide ('a' ≤ c) && decide (c ≤ 'f'))
    || (decide ('A' ≤ c) && decide (c ≤ 'F')) || c == '_'

/-- Go `podSliceRegex.FindStringSubmatch` on an unanchored
`pod([0-9a-fA-F_]+)` (the optional non-capturing `.slice` tail does not
constrain the capture): scan left to right for a literal `pod` followed
by at least one class character and return the maximal class run. -/
def podSliceFind : List Char → Option (List Char)
  | [] => none
  | c :: rest =>
    if ['p', 'o', 'd'].isPrefixOf (c :: rest) then
      let run := ((c :: rest).drop 3).takeWhile isPodIdChar
      if run.isEmpty then podSliceFind rest else some run
    else podSliceFind rest

/-- Go `strings.ReplaceAll uid "_" "-"` on the captured group. -/
def underToHyphen (cs : List Char) : String :=
  String.mk (cs.map (fun c => if c == '_' then '-' else c))

/-- The classification condition of `HandleIngest` line 66, with Go
operator precedence: `key == "pvc_usage" || (strings.Contains(key,
"_mb") && volume != "")`. -/
def isVolumeMetric (key volume : String) : Bool :=
  key == "pvc_usage" || (strContains key "_mb" && volume != "")

/-- UID/type resolution of one `RawMetric` (`HandleIngest` lines 60-90):
returns the pair `(uid, rType)`; `uid = ""` means resolution failed.
`rType` defaults to `"pod"`. -/
def resolveUid (raw : RawMetric) : String × String :=
  if isVolumeMetric raw.key raw.volume then
    match pvcVolumeMatch raw.volume with
    | some u => (u, "pvc")
    | none =>
      if raw.pod_uid != "" then (raw.pod_uid, "pod") else ("", "pod")
  else
    if raw.pod_id != "" then
      match podSliceFind raw.pod_id.data with
      | some run => (underToHyphen run, "pod")
      | none => ("", "pod")
    else ("", "pod")

/-- The Syncer-side resolver interface `ingest.IDResolver`
(`GetResourceID (uid, rType)`); `none` models `ok = false`. -/
def Resolver : Type := String → String → Option Int

/-- Build the `buffer.Metric` appended for one raw metric
(`HandleIngest` lines 92-105): resolve the UID through the resolver,
falling back to `resourceID = 0` when the UID is empty or unknown. -/
def processMetric (res : Resolver) (raw : RawMetric) : Metric :=
  let ur := resolveUid raw
  let resourceID : Int :=
    if ur.1 != "" then
      match res ur.1 ur.2 with
      | some id => id
      | none => 0
    else 0
  { time := raw.ts, resourceID := resourceID, type := raw.key,
    value := raw.value }

/-- Go `(*IngestionServer).HandleIngest` on a decoded batch: append each
metric's sample to the ring window in arrival order and answer HTTP 202. -/
def HandleIngest (res : Resolver) (rb : RingBuffer) (metrics : List RawMetric) :
    RingBuffer × Nat :=
  (metrics.foldl (fun b raw => b.Add (processMetric res raw)) rb, 202)

/-! ### Characterization of the two ingest regular expressions -/

/-- Declarative reading of the anchored uuid body of `pvcVolumeRegex`:
five lower-hex groups of lengths 8, 4, 4, 4, 12 joined by hyphens. -/
def IsUuidChars (cs : List Char) : Prop :=
  ∃ a b c d e : List Char,
    cs = a ++ '-' :: (b ++ '-' :: (c ++ '-' :: (d ++ '-' :: e))) ∧
    a.length = 8 ∧ b.length = 4 ∧ c.length = 4 ∧ d.length = 4 ∧
    e.length = 12 ∧ (a ++ b ++ c ++ d ++ e).all isHexLower = true

theorem hexRun_eq_some_iff (n : Nat) :
    ∀ (cs r : List Char), hexRun n cs = some r ↔
      ∃ p, cs = p ++ r ∧ p.length = n ∧ p.all isHexLower = true := by
  induction n with
  | zero =>
    intro cs r
    simp only [hexRun, Option.some.injEq]
    constructor
    · rintro rfl; exact ⟨[], rfl, rfl, rfl⟩
    · rintro ⟨p, hcs, hlen, _⟩
      rw [List.length_eq_zero] at hlen
      subst hlen
      simpa using hcs
  | succ n ih =>
    intro cs r
    cases cs with
    | nil =>
      simp only [hexRun]
      constructor
      · intro h; simp at h
      · rintro ⟨p, hcs, hlen, _⟩
        cases p with
        | nil => simp at hlen
        | cons a t => simp at hcs
    | cons c cs' =>
      simp only [hexRun]
      by_cases hc : isHexLower c
      · rw [if_pos hc, ih]
        constructor
        · rintro ⟨p, rfl, hlen, hall⟩
          exact ⟨c :: p, rfl, by simp [hlen], by simp [hall, hc]⟩
        · rintro ⟨p, hcs, hlen, hall⟩
          cases p with
          | nil => simp at hlen
          | cons a t =>
            rw [List.cons_append, List.cons_eq_cons] at hcs
            refine ⟨t, hcs.2, by simpa using hlen, ?_⟩
            simp only [List.all_cons, Bool.and_eq_true] at hall
            exact hall.2
      · rw [if_neg hc]
        constructor
        · intro h; simp at h
        · rintro ⟨p, hcs, hlen, hall⟩
          cases p with
          | nil => simp at hlen
          | cons a t =>
            rw [List.cons_append, List.cons_eq_cons] at hcs
            simp only [List.all_cons, Bool.and_eq_true] at hall
            exact absurd (hcs.1 ▸ hall.1) hc

theorem uuidShape_iff (cs : List Char) :
    uuidShape cs = true ↔ IsUuidChars cs := by
  constructor
  · intro h
    unfold uuidShape at h
    split at h <;> try simp at h
    rename_i r1 heq1
    split at h <;> try simp at h
    rename_i r2 heq2
    split at h <;> try simp at h
    rename_i r3 heq3
    split at h <;> try simp at h
    rename_i r4 heq4
    split at h <;> try simp at h
    rename_i heq5
    obtain ⟨a, ha, halen, haall⟩ := (hexRun_eq_some_iff 8 _ _).mp heq1
    obtain ⟨b, hb, hblen, hball⟩ := (hexRun_eq_some_iff 4 _ _).mp heq2
    obtain ⟨c, hc, hclen, hcall⟩ := (hexRun_eq_some_iff 4 _ _).mp heq3
    obtain ⟨d, hd, hdlen, hdall⟩ := (hexRun_eq_some_iff 4 _ _).mp heq4
    obtain ⟨e, he, helen, heall⟩ := (hexRun_eq_some_iff 12 _ _).mp heq5
    rw [List.append_nil] at he
    refine ⟨a, b, c, d, e, ?_, halen, hblen, hclen, hdlen, helen, ?_⟩
    · rw [ha, hb, hc, hd, he]
    · simp [List.all_append, haall, hball, hcall, hdall, heall]
  · rintro ⟨a, b, c, d, e, rfl, ha, hb, hc, hd, he, hall⟩
    simp only [List.append_assoc, List.all_append, Bool.and_eq_true] at hall
    obtain ⟨haall, hball, hcall, hdall, heall⟩ := hall
    have h1 := (hexRun_eq_some_iff 8
      (a ++ '-' :: (b ++ '-' :: (c ++ '-' :: (d ++ '-' :: e))))
      ('-' :: (b ++ '-' :: (c ++ '-' :: (d ++ '-' :: e))))).mpr ⟨a, rfl, ha, haall⟩
    have h2 := (hexRun_eq_some_iff 4
      (b ++ '-' :: (c ++ '-' :: (d ++ '-' :: e)))
      ('-' :: (c ++ '-' :: (d ++ '-' :: e)))).mpr ⟨b, rfl, hb, hball⟩
    have h3 := (hexRun_eq_some_iff 4
      (c ++ '-' :: (d ++ '-' :: e)) ('-' :: (d ++ '-' :: e))).mpr ⟨c, rfl, hc, hcall⟩
    have h4 := (hexRun_eq_some_iff 4
      (d ++ '-' :: e) ('-' :: e)).mpr ⟨d, rfl, hd, hdall⟩
    have h5 := (hexRun_eq_some_iff 12 e []).mpr ⟨e, by simp, he, heall⟩
    simp only [uuidShape, h1, h2, h3, h4, h5]

theorem pvcVolumeMatchList_eq_some_iff (cs u : List Char) :
    pvcVolumeMatchList cs = some u ↔
      IsUuidChars u ∧ cs = 'p' :: 'v' :: 'c' :: '-' :: u := by
  constructor
  · intro h
    unfold pvcVolumeMatchList at h
    by_cases hpre : (['p', 'v', 'c', '-'].isPrefixOf cs : Bool)
    · rw [if_pos hpre] at h
      obtain ⟨t, ht⟩ : ['p', 'v', 'c', '-'] <+: cs :=
        List.isPrefixOf_iff_prefix.mp hpre
      by_cases hshape : uuidShape (cs.drop 4)
      · rw [if_pos hshape] at h
        simp only [Option.some.injEq] at h
        subst h
        have hdrop : cs.drop 4 = t := by rw [← ht]; rfl
        refine ⟨(uuidShape_iff _).mp hshape, ?_⟩
        rw [hdrop, ← ht]
        rfl
      · rw [if_neg hshape] at h
        simp at h
    · rw [if_neg hpre] at h
      simp at h
  · rintro ⟨hu, rfl⟩
    have hpre : (['p', 'v', 'c', '-'].isPrefixOf
        ('p' :: 'v' :: 'c' :: '-' :: u) : Bool) :=
      List.isPrefixOf_iff_prefix.mpr ⟨u, rfl⟩
    have hdrop : ('p' :: 'v' :: 'c' :: '-' :: u).drop 4 = u := rfl
    unfold pvcVolumeMatchList
    rw [if_pos hpre, hdrop, if_pos ((uuidShape_iff u).mpr hu)]

theorem pvcVolumeMatch_eq_some_iff (v u : String) :
    pvcVolumeMatch v = some u ↔ IsUuidChars u.data ∧ v = "pvc-" ++ u := by
  constructor
  · intro h
    unfold pvcVolumeMatch at h
    cases hl : pvcVolumeMatchList v.data with
    | none => rw [hl] at h; exact Option.noConfusion h
    | some w =>
      rw [hl] at h
      simp only [Option.map_some', Option.some.injEq] at h
      obtain ⟨hw, hv⟩ := (pvcVolumeMatchList_eq_some_iff v.data w).mp hl
      subst h
      refine ⟨hw, ?_⟩
      apply String.ext
      rw [String.data_append, hv]
      rfl
  · rintro ⟨hu, rfl⟩
    have hdata : ("pvc-" ++ u).data = 'p' :: 'v' :: 'c' :: '-' :: u.data := by
      rw [String.data_append]
      rfl
    unfold pvcVolumeMatch
    rw [hdata, (pvcVolumeMatchList_eq_some_iff _ u.data).mpr ⟨hu, rfl⟩]
    rfl

theorem dropWhile_head_not (p : Char → Bool) (l : List Char) :
    ∀ c, (l.dropWhile p).head? = some c → p c = false := by
  induction l with
  | nil => intro c h; simp [List.dropWhile] at h
  | cons a t ih =>
    intro c h
    by_cases hp : p a
    · rw [List.dropWhile_cons_of_pos hp] at h
      exact ih c h
    · rw [List.dropWhile_cons_of_neg hp] at h
      simp only [List.head?_cons, Option.some.injEq] at h
      subst h
      exact Bool.eq_false_iff.mpr hp

/-- Soundness of the `podSliceRegex` scan: a successful find returns a
non-empty maximal run of class characters immediately following a
literal `pod` occurrence in the input. -/
theorem podSliceFind_sound (cs : List Char) :
    ∀ run, podSliceFind cs = some run →
      run ≠ [] ∧ run.all isPodIdChar = true ∧
      ∃ pre suf, cs = pre ++ 'p' :: 'o' :: 'd' :: (run ++ suf) ∧
        ∀ c, suf.head? = some c → isPodIdChar c = false := by
  induction cs with
  | nil => intro run h; simp [podSliceFind] at h
  | cons c rest ih =>
    intro run h
    simp only [podSliceFind] at h
    by_cases hpre : (['p', 'o', 'd'].isPrefixOf (c :: rest) : Bool)
    · rw [if_pos hpre] at h
      obtain ⟨t, ht⟩ : ['p', 'o', 'd'] <+: (c :: rest) :=
        List.isPrefixOf_iff_prefix.mp hpre
      have hdrop : (c :: rest).drop 3 = t := by rw [← ht]; rfl
      rw [hdrop] at h
      by_cases hrun : ((t.takeWhile isPodIdChar).isEmpty : Bool)
      · rw [if_pos hrun] at h
        obtain ⟨hne, hall, pre, suf, heq, hsuf⟩ := ih run h
        exact ⟨hne, hall, c :: pre, suf, by rw [List.cons_append, heq], hsuf⟩
      · rw [if_neg hrun] at h
        simp only [Option.some.injEq] at h
        subst h
        refine ⟨by simpa [List.isEmpty_iff] using hrun, ?_, [],
          t.dropWhile isPodIdChar, ?_, dropWhile_head_not isPodIdChar t⟩
        · rw [List.all_eq_true]
          intro x hx
          exact List.mem_takeWhile_imp hx
        · rw [List.nil_append, List.takeWhile_append_dropWhile, ← ht]
          rfl
    · rw [if_neg hpre] at h
      obtain ⟨hne, hall, pre, suf, heq, hsuf⟩ := ih run h
      exact ⟨hne, hall, c :: pre, suf, by rw [List.cons_append, heq], hsuf⟩

/-- C2 (amended). Classification follows the code's condition
`key == "pvc_usage" || (strings.Contains(key, "_mb") && volume != "")`
(Go precedence); in the volume branch a regex match yields the captured
uuid with kind `"pvc"` (and the volume is literally `pvc-` followed by a
well-formed lowercase uuid), and a non-match falls back to `pod_uid`
with kind `"pod"`, failing when `pod_uid` is empty. -/
theorem ingest_volume_classification (raw : RawMetric) :
    (isVolumeMetric raw.key raw.volume = true ↔
      raw.key = "pvc_usage" ∨
        (strContains raw.key "_mb" = true ∧ raw.volume ≠ "")) ∧
    (isVolumeMetric raw.key raw.volume = true →
      (∀ u : String, pvcVolumeMatch raw.volume = some u →
        resolveUid raw = (u, "pvc") ∧ IsUuidChars u.data ∧
          raw.volume = "pvc-" ++ u) ∧
      (∀ u : String, IsUuidChars u.data → raw.volume = "pvc-" ++ u →
        resolveUid raw = (u, "pvc")) ∧
      (pvcVolumeMatch raw.volume = none →
        resolveUid raw =
          if raw.pod_uid != "" then (raw.pod_uid, "pod")
          else ("", "pod"))) := by
  constructor
  · simp [isVolumeMetric]
  · intro hvb
    refine ⟨?_, ?_, ?_⟩
    · intro u hm
      have hres : resolveUid raw = (u, "pvc") := by
        unfold resolveUid
        rw [if_pos hvb, hm]
      obtain ⟨hu, hv⟩ := (pvcVolumeMatch_eq_some_iff raw.volume u).mp hm
      exact ⟨hres, hu, hv⟩
    · intro u hu hv
      have hm : pvcVolumeMatch raw.volume = some u :=
        (pvcVolumeMatch_eq_some_iff raw.volume u).mpr ⟨hu, hv⟩
      unfold resolveUid
      rw [if_pos hvb, hm]
    · intro hnone
      unfold resolveUid
      rw [if_pos hvb, hnone]

/-- The metric exhibiting the C2 classification divergence: `key =
"pvc_usage"` with an empty `volume` and a slice-style `pod_id`. -/
def c2Raw : RawMetric :=
  { type := "pvc_usage", pod_id := "pod1234", pod_uid := "", volume := "",
    container_id := "", key := "pvc_usage", value := 1.0, ts := 5 }

/-- C2 counterexample: with `key = "pvc_usage"` and empty `volume` the
code still takes the volume branch (and resolution fails), although the
claim's classification condition does not hold — under the claim this
would be a container metric whose `pod_id` decodes to uid `"1234"`. -/
theorem ingest_volume_classification_cex :
    isVolumeMetric c2Raw.key c2Raw.volume = true ∧
    ¬ (c2Raw.volume ≠ "" ∧
        (c2Raw.key = "pvc_usage" ∨ c2Raw.key = "total_mb" ∨
          c2Raw.key = "used_mb" ∨ c2Raw.key = "free_mb")) ∧
    resolveUid c2Raw = ("", "pod") ∧
    podSliceFind c2Raw.pod_id.data = some ['1', '2', '3', '4'] ∧
    underToHyphen ['1', '2', '3', '4'] = "1234" := by
  refine ⟨rfl, ?_, by decide, by decide, by decide⟩
  rintro ⟨hv, _⟩
  exact hv rfl

/-- The S4-style PVC metric used as the C2 witness. -/
def c2PvcRaw : RawMetric :=
  { type := "pvc_usage", pod_id := "", pod_uid := "",
    volume := "pvc-11111111-2222-3333-4444-555555555555",
    container_id := "", key := "used_mb", value := 42.0, ts := 2000 }

/-- Witness for C2 (amended) at a concrete PVC metric. -/
theorem ingest_volume_classification_witness :
    isVolumeMetric c2PvcRaw.key c2PvcRaw.volume = true ∧
    pvcVolumeMatch c2PvcRaw.volume
      = some "11111111-2222-3333-4444-555555555555" ∧
    (resolveUid c2PvcRaw
        = ("11111111-2222-3333-4444-555555555555", "pvc") ∧
      IsUuidChars ("11111111-2222-3333-4444-555555555555" : String).data ∧
      c2PvcRaw.volume = "pvc-" ++ "11111111-2222-3333-4444-555555555555") := by
  have hvb : isVolumeMetric c2PvcRaw.key c2PvcRaw.volume = true := by decide
  have hm : pvcVolumeMatch c2PvcRaw.volume
      = some "11111111-2222-3333-4444-555555555555" := by decide
  exact ⟨hvb, hm, ((ingest_volume_classification c2PvcRaw).2 hvb).1 _ hm⟩

/-- C7. Resolution-miss safety: a metric whose resolved uid is empty or
unknown to the resolver still yields a sample with `resourceID = 0`
carrying the metric's key, value and timestamp; the sample is handed to
the ring window's `Add` (and lands at the end of the buffer whenever
there is room), and the batch is always answered with 202. -/
theorem resolution_miss_safety (res : Resolver) (rb : RingBuffer)
    (raw : RawMetric)
    (hmiss : (resolveUid raw).1 = "" ∨
      res (resolveUid raw).1 (resolveUid raw).2 = none) :
    processMetric res raw
      = { time := raw.ts, resourceID := 0, type := raw.key,
          value := raw.value } ∧
    (∀ batch : List RawMetric, (HandleIngest res rb batch).2 = 202) ∧
    (HandleIngest res rb [raw]).1 = rb.Add (processMetric res raw) ∧
    (rb.metrics.length < rb.maxSize →
      ((HandleIngest res rb [raw]).1).metrics
        = rb.metrics ++ [processMetric res raw]) := by
  have hpm : processMetric res raw
      = { time := raw.ts, resourceID := 0, type := raw.key,
          value := raw.value } := by
    unfold processMetric
    rcases hmiss with h | h
    · simp [h]
    · simp [h]
  refine ⟨hpm, fun _ => rfl, rfl, fun hroom => ?_⟩
  show (rb.Add (processMetric res raw)).metrics = _
  unfold RingBuffer.Add
  rw [if_neg (by omega)]

/-- A resolver with an empty cache: every lookup misses. -/
def missResolver : Resolver := fun _ _ => none

/-- The out-of-order metric (S3) used as the C7 witness. -/
def c7Raw : RawMetric :=
  { type := "container", pod_id := "", pod_uid := "", volume := "",
    container_id := "", key := "cpu_ms", value := 3.0, ts := 1000 }

/-- Witness for C7 at a concrete unresolvable metric. -/
theorem resolution_miss_safety_witness :
    ((resolveUid c7Raw).1 = "" ∨
      missResolver (resolveUid c7Raw).1 (resolveUid c7Raw).2 = none) ∧
    (processMetric missResolver c7Raw
        = { time := c7Raw.ts, resourceID := 0, type := c7Raw.key,
            value := c7Raw.value } ∧
      (∀ batch : List RawMetric,
        (HandleIngest missResolver (NewRingBuffer 4) batch).2 = 202) ∧
      (HandleIngest missResolver (NewRingBuffer 4) [c7Raw]).1
        = (NewRingBuffer 4).Add (processMetric missResolver c7Raw) ∧
      ((NewRingBuffer 4).metrics.length < (NewRingBuffer 4).maxSize →
        ((HandleIngest missResolver (NewRingBuffer 4) [c7Raw]).1).metrics
          = (NewRingBuffer 4).metrics
              ++ [processMetric missResolver c7Raw])) :=
  ⟨Or.inl rfl,
    resolution_miss_safety missResolver (NewRingBuffer 4) c7Raw (Or.inl rfl)⟩

/-- The container metric of the C8 example. -/
def c8Raw : RawMetric :=
  { type := "container",
    pod_id := "kubepods-burstable-pod4f2b_3a19_4c_aa22_0f11e2d33c44.slice",
    pod_uid := "", volume := "", container_id := "", key := "cpu_ms",
    value := 1.0, ts := 1000 }

/-- C8. Cgroup pod-UID decode: the example slice path decodes to
`4f2b-3a19-4c-aa22-0f11e2d33c44`; and in general, for a container metric
with non-empty `pod_id`, a successful scan returns the maximal class run
following a literal `pod`, and the resolved uid is that run with
underscores replaced by hyphens, with kind `"pod"`. -/
theorem cgroup_pod_uid_decode :
    resolveUid c8Raw = ("4f2b-3a19-4c-aa22-0f11e2d33c44", "pod") ∧
    (∀ raw : RawMetric, isVolumeMetric raw.key raw.volume = false →
      raw.pod_id ≠ "" →
      ∀ run, podSliceFind raw.pod_id.data = some run →
        resolveUid raw = (underToHyphen run, "pod") ∧
        run ≠ [] ∧ run.all isPodIdChar = true ∧
        ∃ pre suf,
          raw.pod_id.data = pre ++ 'p' :: 'o' :: 'd' :: (run ++ suf) ∧
          ∀ c, suf.head? = some c → isPodIdChar c = false) := by
  constructor
  · decide
  · intro raw hvb hpid run hfind
    have hres : resolveUid raw = (underToHyphen run, "pod") := by
      unfold resolveUid
      rw [if_neg (by simp [hvb]), if_pos (bne_iff_ne.mpr hpid), hfind]
    obtain ⟨hne, hall, pre, suf, heq, hsuf⟩ := podSliceFind_sound _ run hfind
    exact ⟨hres, hne, hall, pre, suf, heq, hsuf⟩

/-- The captured class run of the C8 example. -/
def c8Run : List Char :=
  ['4', 'f', '2', 'b', '_', '3', 'a', '1', '9', '_', '4', 'c', '_',
   'a', 'a', '2', '2', '_', '0', 'f', '1', '1', 'e', '2', 'd', '3',
   '3', 'c', '4', '4']

/-- Witness for C8's general part at the example slice path. -/
theorem cgroup_pod_uid_decode_witness :
    isVolumeMetric c8Raw.key c8Raw.volume = false ∧
    c8Raw.pod_id ≠ "" ∧
    podSliceFind c8Raw.pod_id.data = some c8Run ∧
    (resolveUid c8Raw = (underToHyphen c8Run, "pod") ∧
      c8Run ≠ [] ∧ c8Run.all isPodIdChar = true ∧
      ∃ pre suf,
        c8Raw.pod_id.data = pre ++ 'p' :: 'o' :: 'd' :: (c8Run ++ suf) ∧
        ∀ c, suf.head? = some c → isPodIdChar c = false) := by
  have hvb : isVolumeMetric c8Raw.key c8Raw.volume = false := by decide
  have hpid : c8Raw.pod_id ≠ "" := by decide
  have hfind : podSliceFind c8Raw.pod_id.data = some c8Run := by decide
  exact ⟨hvb, hpid, hfind,
    (cgroup_pod_uid_decode.2 c8Raw hvb hpid c8Run hfind)⟩

/-! ### Live query API (`api/live.go`) -/

/-- Go struct `api.ContainerInfo` (zero-valued floats on creation). -/
structure ContainerInfo where
  id : String
  cpu_ms : Float
  mem_mb : Float
  mem_limit_mb : Float
deriving Repr

/-- Go struct `api.PVCInfo`. -/
structure PVCInfo where
  id : Int
  name : String
  volumeName : String
  totalMB : Float
  usedMB : Float
  freeMB : Float
deriving Repr

/-- One row of the live query's join over `pods` (selected names plus
the filterable columns `deployment_id`, `node_id`). -/
structure PodRow where
  id : Int
  name : String
  uid : String
  nsName : String
  nodeName : String
  depName : Option String
  deployment_id : Option Int
  node_id : Int
deriving Repr

/-- Go struct `api.LivePod`. -/
structure LivePod where
  id : Int
  name : String
  uid : String
  nsName : String
  nodeName : String
  deployment : Option String
  containers : List ContainerInfo
  pvcs : List PVCInfo
deriving Repr

/-- Go struct `api.LiveMetricsResponse`. -/
structure LiveMetricsResponse where
  timestamp : Int
  pods : List LivePod
deriving Repr

/-- The client-supplied integer selectors (`getQueryInt`: a malformed or
absent parameter is `none`). -/
structure Filters where
  deployment : Option Int
  node : Option Int
  pod : Option Int
deriving Repr

/-- The WHERE clause built from the filters (`handleLiveMetrics` lines
71-85); a NULL `deployment_id` never equals an integer selector. -/
def filtersMatch (f : Filters) (p : PodRow) : Bool :=
  (match f.deployment with
   | some d => p.deployment_id == some d
   | none => true) &&
  (match f.node with
   | some n => p.node_id == n
   | none => true) &&
  (match f.pod with
   | some i => p.id == i
   | none => true)

/-- `containerMetrics["default"]` initialization: insert the zero-valued
entry when the key is absent (lines 131-132 and twins). -/
def getDefault (cm : List (String × ContainerInfo)) :
    List (String × ContainerInfo) :=
  if cm.any (fun e => e.1 == "default") then cm
  else cm ++ [("default", ⟨"default", 0, 0, 0⟩)]

/-- Initialize-if-absent then update the `"default"` entry. -/
def setDefault (cm : List (String × ContainerInfo))
    (upd : ContainerInfo → ContainerInfo) : List (String × ContainerInfo) :=
  (getDefault cm).map (fun e => if e.1 == "default" then (e.1, upd e.2) else e)

/-- One iteration of the aggregation switch for the container metric
types (lines 129-144). -/
def containerAggStep (cm : List (String × ContainerInfo)) (m : Metric) :
    List (String × ContainerInfo) :=
  if m.type == "cpu_ms" then
    setDefault cm (fun c => { c with cpu_ms := m.value })
  else if m.type == "mem_mb" then
    setDefault cm (fun c => { c with mem_mb := m.value })
  else if m.type == "mem_limit_mb" then
    setDefault cm (fun c => { c with mem_limit_mb := m.value })
  else cm

/-- One iteration of the aggregation switch for the PVC metric types
(lines 145-149): the case body for `"total_mb"`, `"used_mb"`,
`"free_mb"` is empty, so the pvc map is never written. -/
def pvcAggStep (pm : List (Int × PVCInfo)) (m : Metric) :
    List (Int × PVCInfo) :=
  if m.type == "total_mb" || m.type == "used_mb" || m.type == "free_mb" then
    pm
  else pm

/-- Build the `LivePod` for one matching row (lines 106-160): aggregate
the window samples with this row's id that are not strictly before the
cutoff. -/
def mkLivePod (cutoffTime : Int) (allMetrics : List Metric) (p : PodRow) :
    LivePod :=
  let rel := allMetrics.filter
    (fun m => m.resourceID == p.id && ! decide (m.time < cutoffTime))
  { id := p.id, name := p.name, uid := p.uid, nsName := p.nsName,
    nodeName := p.nodeName, deployment := p.depName,
    containers := (rel.foldl containerAggStep []).map (fun e => e.2),
    pvcs := (rel.foldl pvcAggStep []).map (fun e => e.2) }

/-- Go `(*Server).handleLiveMetrics` on a GET request: `now` stands for
the single wall clock behind the two `time.Now()` calls; `rows` is the
result of the pods join in query order. -/
def handleLiveMetrics (now : Int) (ring : RingBuffer) (rows : List PodRow)
    (f : Filters) : LiveMetricsResponse :=
  let cutoffTime := now - 5
  let allMetrics := ring.ReadAll
  let activePodIDs := (allMetrics.filter
    (fun m => decide (cutoffTime < m.time) && decide (0 < m.resourceID))).map
      (fun m => m.resourceID)
  if activePodIDs.isEmpty then { timestamp := now, pods := [] }
  else
    { timestamp := now,
      pods := (rows.filter
          (fun p => filtersMatch f p && activePodIDs.contains p.id)).map
        (mkLivePod cutoffTime allMetrics) }

/-- The freshness predicate that characterizes membership: the row
passes the filters and some window sample with its (positive) id is
strictly newer than `now - 5`. -/
def liveKeep (now : Int) (ring : RingBuffer) (f : Filters) (p : PodRow) :
    Bool :=
  filtersMatch f p && ring.metrics.any
    (fun m => m.resourceID == p.id && decide (0 < m.resourceID) &&
      decide (now - m.time < 5))

theorem handleLiveMetrics_pods (now : Int) (ring : RingBuffer)
    (rows : List PodRow) (f : Filters) :
    (handleLiveMetrics now ring rows f).pods
      = (rows.filter (liveKeep now ring f)).map
          (mkLivePod (now - 5) ring.metrics) := by
  have hcontains : ∀ p : PodRow,
      (((ring.metrics.filter
          (fun m => decide (now - 5 < m.time) && decide (0 < m.resourceID))).map
        (fun m => m.resourceID)).contains p.id)
      = ring.metrics.any
          (fun m => m.resourceID == p.id && decide (0 < m.resourceID) &&
            decide (now - m.time < 5)) := by
    intro p
    rw [Bool.eq_iff_iff]
    simp only [List.contains_eq_any_beq, List.any_eq_true, List.mem_map,
      List.mem_filter, Bool.and_eq_true, decide_eq_true_eq, beq_iff_eq]
    constructor
    · rintro ⟨x, ⟨m, ⟨hm, ht, hpos⟩, rfl⟩, hx⟩
      exact ⟨m, hm, ⟨hx.symm, hpos⟩, by omega⟩
    · rintro ⟨m, hm, ⟨hid, hpos⟩, hage⟩
      exact ⟨m.resourceID, ⟨m, ⟨hm, by omega, hpos⟩, rfl⟩, hid.symm⟩
  unfold handleLiveMetrics RingBuffer.ReadAll
  by_cases hempty : ((ring.metrics.filter
      (fun m => decide (now - 5 < m.time) && decide (0 < m.resourceID))).map
        (fun m => m.resourceID)).isEmpty
  · rw [if_pos hempty]
    have hnil : (ring.metrics.filter
        (fun m => decide (now - 5 < m.time) && decide (0 < m.resourceID))).map
          (fun m => m.resourceID) = [] :=
      List.isEmpty_iff.mp hempty
    have hfil : rows.filter (liveKeep now ring f) = [] := by
      rw [List.filter_eq_nil_iff]
      intro p _
      unfold liveKeep
      have h := hcontains p
      rw [hnil] at h
      have hfalse : ring.metrics.any
          (fun m => m.resourceID == p.id && decide (0 < m.resourceID) &&
            decide (now - m.time < 5)) = false := by
        rw [← h]; rfl
      rw [hfalse]
      simp
    rw [hfil]
    rfl
  · rw [if_neg hempty]
    show (rows.filter _).map _ = _
    congr 1
    apply List.filter_congr
    intro p _
    unfold liveKeep
    rw [hcontains p]

theorem handleLiveMetrics_timestamp (now : Int) (ring : RingBuffer)
    (rows : List PodRow) (f : Filters) :
    (handleLiveMetrics now ring rows f).timestamp = now := by
  unfold handleLiveMetrics RingBuffer.ReadAll
  by_cases hempty : ((ring.metrics.filter
      (fun m => decide (now - 5 < m.time) && decide (0 < m.resourceID))).map
        (fun m => m.resourceID)).isEmpty
  · rw [if_pos hempty]
  · rw [if_neg hempty]

/-- C3 (amended). Live-view freshness with the code's strict boundary:
the response carries timestamp `now` and returns exactly the
filter-matching rows having some window sample with their (positive) id
strictly newer than `now - 5` — i.e. strictly less than 5 seconds older
than the response timestamp — in query order. -/
theorem live_view_freshness (now : Int) (ring : RingBuffer)
    (rows : List PodRow) (f : Filters) :
    (handleLiveMetrics now ring rows f).timestamp = now ∧
    (handleLiveMetrics now ring rows f).pods
      = (rows.filter (fun p => filtersMatch f p && ring.metrics.any
          (fun m => m.resourceID == p.id && decide (0 < m.resourceID) &&
            decide (now - m.time < 5)))).map
          (mkLivePod (now - 5) ring.metrics) :=
  ⟨handleLiveMetrics_timestamp now ring rows f,
   handleLiveMetrics_pods now ring rows f⟩

/-- A window holding a single sample exactly 5 s older than the
response timestamp 100. -/
def c3Ring : RingBuffer :=
  { metrics := [⟨95, 1, "cpu_ms", 1.0⟩], maxSize := 4 }

/-- The pod row owning the boundary sample. -/
def c3Row : PodRow :=
  { id := 1, name := "web", uid := "p-1", nsName := "ns-a",
    nodeName := "host-1", depName := none, deployment_id := none,
    node_id := 1 }

/-- Absent filter parameters. -/
def noFilters : Filters := { deployment := none, node := none, pod := none }

/-- C3 counterexample: the pod's only sample is exactly 5 s older than
the response timestamp — at most 5 s old, positive id, filters match —
yet the handler returns no pods, because its freshness test is the
strict `m.Time.After(now - 5s)`. -/
theorem live_view_freshness_cex :
    (handleLiveMetrics 100 c3Ring [c3Row] noFilters).pods = [] ∧
    c3Ring.metrics.any
      (fun m => m.resourceID == c3Row.id && decide (0 < m.resourceID) &&
        decide ((100 : Int) - m.time ≤ 5)) = true ∧
    filtersMatch noFilters c3Row = true :=
  ⟨rfl, by decide, rfl⟩

/-- The pvc aggregation fold never inserts: its result is its initial
map whatever the samples are. -/
theorem foldl_pvcAggStep (ms : List Metric) (pm : List (Int × PVCInfo)) :
    ms.foldl pvcAggStep pm = pm := by
  induction ms generalizing pm with
  | nil => rfl
  | cons m t ih =>
    rw [List.foldl_cons,
      show pvcAggStep pm m = pm by unfold pvcAggStep; split <;> rfl]
    exact ih pm

/-- C10. In every live response, every returned pod has an empty `pvcs`
list: the handler allocates the pvc map but its `"total_mb"` /
`"used_mb"` / `"free_mb"` switch arm never inserts into it. -/
theorem live_view_pvcs_empty (now : Int) (ring : RingBuffer)
    (rows : List PodRow) (f : Filters) :
    ∀ p ∈ (handleLiveMetrics now ring rows f).pods, p.pvcs = [] := by
  intro p hp
  rw [handleLiveMetrics_pods] at hp
  obtain ⟨row, _, rfl⟩ := List.mem_map.mp hp
  show ((ring.metrics.filter
      (fun m => m.resourceID == row.id
        && ! decide (m.time < now - 5))).foldl pvcAggStep []).map
          (fun e => e.2) = []
  rw [foldl_pvcAggStep]
  rfl

/-- A window with one fresh container sample for pod 1. -/
def c10Ring : RingBuffer :=
  { metrics := [⟨100, 1, "cpu_ms", 7.0⟩], maxSize := 4 }

/-- The pod row returned in the C10 witness scenario. -/
def c10Row : PodRow :=
  { id := 1, name := "web", uid := "p-1", nsName := "ns-a",
    nodeName := "host-1", depName := none, deployment_id := none,
    node_id := 1 }

/-- The live pod the handler produces for `c10Row`. -/
def c10Pod : LivePod :=
  { id := 1, name := "web", uid := "p-1", nsName := "ns-a",
    nodeName := "host-1", deployment := none,
    containers := [⟨"default", 7.0, 0, 0⟩], pvcs := [] }

/-- Witness for C10: a concretely returned pod, whose `pvcs` is empty
even though the handler saw its samples. -/
theorem live_view_pvcs_empty_witness :
    c10Pod ∈ (handleLiveMetrics 100 c10Ring [c10Row] noFilters).pods ∧
    c10Pod.pvcs = [] := by
  have hmem : c10Pod
      ∈ (handleLiveMetrics 100 c10Ring [c10Row] noFilters).pods := by
    show c10Pod ∈ [c10Pod]
    exact List.mem_singleton.mpr rfl
  exact ⟨hmem,
    live_view_pvcs_empty 100 c10Ring [c10Row] noFilters c10Pod hmem⟩

/-! ### Identity store (`store/sqlite.go`) -/

/-- Row of `namespaces` (id held by the enclosing table). -/
structure NsRow where
  name : String
deriving Repr

/-- Row of `nodes`. -/
structure NodeRow where
  uid : String
  name : String
deriving Repr

/-- Row of `deployments` / `statefulsets` / `daemonsets`. -/
structure CtrlRow where
  uid : String
  name : String
  namespace_id : Int
deriving Repr

/-- Row of `pods`. -/
structure PodDbRow where
  uid : String
  name : String
  namespace_id : Int
  node_id : Int
  deployment_id : Option Int
  statefulset_id : Option Int
  daemonset_id : Option Int
deriving Repr

/-- Row of `pvcs`. -/
structure PvcRow where
  uid : String
  name : String
  namespace_id : Int
deriving Repr

/-- A table with AUTOINCREMENT ids starting at 1. -/
structure Table (α : Type) where
  rows : List (Int × α)
  next : Int
deriving Repr

def Table.empty {α : Type} : Table α := { rows := [], next := 1 }

/-- Relational semantics of `INSERT ... ON CONFLICT(key) DO UPDATE ...
RETURNING id`: when a row whose key column equals `k` exists, update it
in place with `upd` and return its id; otherwise append a fresh row
under the next id. -/
def Table.upsert {α : Type} (t : Table α) (key : α → String) (k : String)
    (fresh : α) (upd : α → α) : Int × Table α :=
  match t.rows.find? (fun r => key r.2 == k) with
  | some (id, _) =>
    (id, { t with rows :=
            t.rows.map (fun r => if key r.2 == k then (r.1, upd r.2) else r) })
  | none =>
    (t.next, { rows := t.rows ++ [(t.next, fresh)], next := t.next + 1 })

/-- The Identity Store's tables (`initSchema`). -/
structure DB where
  namespaces : Table NsRow
  nodes : Table NodeRow
  deployments : Table CtrlRow
  statefulsets : Table CtrlRow
  daemonsets : Table CtrlRow
  pods : Table PodDbRow
  pvcs : Table PvcRow
deriving Repr

def DB.empty : DB :=
  ⟨Table.empty, Table.empty, Table.empty, Table.empty, Table.empty,
   Table.empty, Table.empty⟩

/-- Go `UpsertNamespace`: conflict target `name`, update is the no-op
`SET name=name`. -/
def DB.UpsertNamespace (db : DB) (name : String) : Int × DB :=
  let r := db.namespaces.upsert (fun nr => nr.name) name ⟨name⟩ (fun nr => nr)
  (r.1, { db with namespaces := r.2 })

/-- Go `UpsertNode`: conflict target `uid`, on conflict update `name`. -/
def DB.UpsertNode (db : DB) (uid name : String) : Int × DB :=
  let r := db.nodes.upsert (fun nr => nr.uid) uid ⟨uid, name⟩
    (fun nr => { nr with name := name })
  (r.1, { db with nodes := r.2 })

/-- Go `UpsertDeployment`: conflict target `uid`, on conflict update
`name` and `namespace_id`. -/
def DB.UpsertDeployment (db : DB) (uid name : String) (nsID : Int) :
    Int × DB :=
  let r := db.deployments.upsert (fun cr => cr.uid) uid ⟨uid, name, nsID⟩
    (fun cr => { cr with name := name, namespace_id := nsID })
  (r.1, { db with deployments := r.2 })

/-- Go `UpsertStatefulSet`. -/
def DB.UpsertStatefulSet (db : DB) (uid name : String) (nsID : Int) :
    Int × DB :=
  let r := db.statefulsets.upsert (fun cr => cr.uid) uid ⟨uid, name, nsID⟩
    (fun cr => { cr with name := name, namespace_id := nsID })
  (r.1, { db with statefulsets := r.2 })

/-- Go `UpsertDaemonSet`. -/
def DB.UpsertDaemonSet (db : DB) (uid name : String) (nsID : Int) :
    Int × DB :=
  let r := db.daemonsets.upsert (fun cr => cr.uid) uid ⟨uid, name, nsID⟩
    (fun cr => { cr with name := name, namespace_id := nsID })
  (r.1, { db with daemonsets := r.2 })

/-- Go `UpsertPod`: conflict target `uid`, on conflict update all
mutable fields. -/
def DB.UpsertPod (db : DB) (uid name : String) (nsID nodeID : Int)
    (depID stsID dsID : Option Int) : Int × DB :=
  let r := db.pods.upsert (fun pr => pr.uid) uid
    ⟨uid, name, nsID, nodeID, depID, stsID, dsID⟩
    (fun pr => { pr with
      name := name
      namespace_id := nsID
      node_id := nodeID
      deployment_id := depID
      statefulset_id := stsID
      daemonset_id := dsID })
  (r.1, { db with pods := r.2 })

/-- Go `UpsertPVC`. -/
def DB.UpsertPVC (db : DB) (uid name : String) (nsID : Int) : Int × DB :=
  let r := db.pvcs.upsert (fun vr => vr.uid) uid ⟨uid, name, nsID⟩
    (fun vr => { vr with name := name, namespace_id := nsID })
  (r.1, { db with pvcs := r.2 })

/-- Go `GetResourceID(table, uid)`: `SELECT id FROM table WHERE uid = ?`
for the table names the syncer passes; a query error (no rows) is
`none`. -/
def DB.GetResourceID (db : DB) (table uid : String) : Option Int :=
  if table == "deployments" then
    (db.deployments.rows.find? (fun r => r.2.uid == uid)).map (fun r => r.1)
  else if table == "statefulsets" then
    (db.statefulsets.rows.find? (fun r => r.2.uid == uid)).map (fun r => r.1)
  else if table == "daemonsets" then
    (db.daemonsets.rows.find? (fun r => r.2.uid == uid)).map (fun r => r.1)
  else none

/-! ### Resource syncer (`syncer` package) -/

/-- The fields of a watched Node object the syncer reads. -/
structure NodeObj where
  uid : String
  name : String
deriving Repr

/-- One owner reference of a watched object. -/
structure OwnerRef where
  kind : String
  uid : String
deriving Repr

/-- The fields of a watched Pod object the syncer reads. -/
structure PodObj where
  uid : String
  name : String
  nsName : String
  nodeName : String
  ownerReferences : List OwnerRef
deriving Repr

/-- `ResourceSyncer` state: the Identity Store, the five caches, and a
fault schedule deciding which store statements fail transiently
(spec section 7); an empty schedule means every statement succeeds. -/
structure Syncer where
  db : DB
  pods : List (String × Int)
  pvcs : List (String × Int)
  namespaces : List (String × Int)
  nodes : List (String × Int)
  replicaSets : List (String × Int)
  faults : List Bool
deriving Repr

def Syncer.init : Syncer := ⟨DB.empty, [], [], [], [], [], []⟩

/-- Go map read `v, ok := m[k]`. -/
def mapGet (l : List (String × Int)) (k : String) : Option Int :=
  match l with
  | [] => none
  | e :: rest => if e.1 == k then some e.2 else mapGet rest k

/-- Go map write `m[k] = v`. -/
def mapSet (l : List (String × Int)) (k : String) (v : Int) :
    List (String × Int) :=
  if l.any (fun e => e.1 == k) then
    l.map (fun e => if e.1 == k then (e.1, v) else e)
  else l ++ [(k, v)]

/-- Execute one fallible Identity Store statement: the head of the
fault schedule (consumed either way) decides whether the statement
errors with the state unchanged, or commits. -/
def Syncer.dbCall (s : Syncer) (op : DB → Int × DB) : Option Int × Syncer :=
  match s.faults with
  | true :: rest => (none, { s with faults := rest })
  | false :: rest =>
    let r := op s.db
    (some r.1, { s with db := r.2, faults := rest })
  | [] =>
    let r := op s.db
    (some r.1, { s with db := r.2 })

/-- Go `getNamespaceID`: cache hit, else upsert and cache (0 on store
failure). -/
def Syncer.getNamespaceID (s : Syncer) (name : String) : Int × Syncer :=
  match mapGet s.namespaces name with
  | some id => (id, s)
  | none =>
    let r := s.dbCall (fun db => db.UpsertNamespace name)
    match r.1 with
    | none => (0, r.2)
    | some id =>
      (id, { r.2 with namespaces := mapSet r.2.namespaces name id })

/-- Go `getNodeID`: cache hit on `name`, else upsert (synthesizing
`uid = "stub-" + name` when the caller knows no uid) and cache. -/
def Syncer.getNodeID (s : Syncer) (name uid : String) : Int × Syncer :=
  match mapGet s.nodes name with
  | some id => (id, s)
  | none =>
    let uid2 := if uid == "" then "stub-" ++ name else uid
    let r := s.dbCall (fun db => db.UpsertNode uid2 name)
    match r.1 with
    | none => (0, r.2)
    | some id => (id, { r.2 with nodes := mapSet r.2.nodes name id })

/-- Go `syncNode`. -/
def Syncer.syncNode (s : Syncer) (n : NodeObj) : Syncer :=
  (s.getNodeID n.name n.uid).2

/-- The owner-reference loop of `syncPod` (lines 243-262): the triple is
`(deployment_id, statefulset_id, daemonset_id)`. -/
def Syncer.resolveOwners (s : Syncer) (refs : List OwnerRef) :
    Option Int × Option Int × Option Int :=
  refs.foldl
    (fun acc owner =>
      if owner.kind == "StatefulSet" then
        match s.db.GetResourceID "statefulsets" owner.uid with
        | some id => (acc.1, some id, acc.2.2)
        | none => acc
      else if owner.kind == "DaemonSet" then
        match s.db.GetResourceID "daemonsets" owner.uid with
        | some id => (acc.1, acc.2.1, some id)
        | none => acc
      else if owner.kind == "ReplicaSet" then
        match mapGet s.replicaSets owner.uid with
        | some id => (some id, acc.2.1, acc.2.2)
        | none => acc
      else acc)
    (none, none, none)

/-- Go `syncPod`: resolve the namespace (skip on 0), skip unscheduled
pods, resolve the node through the cache or a stub upsert (skip on 0),
resolve owner links, upsert the pod and cache its id (skip the cache on
store failure). -/
def Syncer.syncPod (s : Syncer) (pod : PodObj) : Syncer :=
  let r1 := s.getNamespaceID pod.nsName
  if r1.1 == 0 then r1.2
  else if pod.nodeName != "" then
    let r2 := r1.2.getNodeID pod.nodeName ""
    if r2.1 == 0 then r2.2
    else
      let owners := r2.2.resolveOwners pod.ownerReferences
      let r3 := r2.2.dbCall (fun db =>
        db.UpsertPod pod.uid pod.name r1.1 r2.1
          owners.1 owners.2.1 owners.2.2)
      match r3.1 with
      | none => r3.2
      | some id => { r3.2 with pods := mapSet r3.2.pods pod.uid id }
  else r1.2

/-- Go `(*ResourceSyncer).GetResourceID`, the resolve contract exposed
to ingestion: a pure cache lookup. -/
def Syncer.GetResourceID (s : Syncer) (uid rType : String) : Option Int :=
  if rType == "pvc" then mapGet s.pvcs uid else mapGet s.pods uid

theorem find?_keyed_map {α : Type} (key : α → String) (k : String)
    (upd : α → α) (hupd : ∀ a, key a = k → key (upd a) = k)
    (l : List (Int × α)) :
    (l.map (fun r => if key r.2 == k then (r.1, upd r.2) else r)).find?
        (fun r => key r.2 == k)
      = (l.find? (fun r => key r.2 == k)).map (fun r => (r.1, upd r.2)) := by
  induction l with
  | nil => rfl
  | cons r t ih =>
    by_cases h : (key r.2 == k : Bool)
    · have h2 : (key (upd r.2) == k) = true :=
        beq_iff_eq.mpr (hupd r.2 (beq_iff_eq.mp h))
      have hhead : (if (key r.2 == k) = true then (r.1, upd r.2) else r)
          = (r.1, upd r.2) := if_pos h
      rw [List.map_cons, hhead]
      simp only [List.find?_cons, h2, h, Option.map_some']
    · have hf : (key r.2 == k) = false := Bool.eq_false_iff.mpr h
      have hhead : (if (key r.2 == k) = true then (r.1, upd r.2) else r)
          = r := if_neg h
      rw [List.map_cons, hhead]
      simp only [List.find?_cons, hf]
      exact ih

theorem find?_append_of_none {α : Type} (l1 l2 : List α) (p : α → Bool)
    (h : l1.find? p = none) : (l1 ++ l2).find? p = l2.find? p := by
  induction l1 with
  | nil => rfl
  | cons a t ih =>
    by_cases hp : (p a : Bool)
    · simp only [List.find?_cons, hp] at h
      exact Option.noConfusion h
    · have hf : p a = false := Bool.eq_false_iff.mpr hp
      simp only [List.find?_cons, hf] at h
      rw [List.cons_append]
      simp only [List.find?_cons, hf]
      exact ih h

/-- Repeating a keyed upsert with the same key and fields returns the
same id and leaves the row count unchanged, provided the fresh row
carries the key and the update preserves it (true of every statement in
`sqlite.go`). -/
theorem Table.upsert_twice {α : Type} (t : Table α) (key : α → String)
    (k : String) (fresh : α) (upd : α → α)
    (hfresh : key fresh = k) (hupd : ∀ a, key a = k → key (upd a) = k) :
    ((t.upsert key k fresh upd).2.upsert key k fresh upd).1
        = (t.upsert key k fresh upd).1 ∧
    ((t.upsert key k fresh upd).2.upsert key k fresh upd).2.rows.length
        = (t.upsert key k fresh upd).2.rows.length := by
  cases hfind : t.rows.find? (fun r => key r.2 == k) with
  | some ra =>
    obtain ⟨id, a⟩ := ra
    have h1 : t.upsert key k fresh upd
        = (id, { t with rows := t.rows.map (fun r => if key r.2 == k then (r.1, upd r.2) else r) }) := by
      unfold Table.upsert
      rw [hfind]
    have hfind2 : (t.rows.map
        (fun r => if key r.2 == k then (r.1, upd r.2) else r)).find?
          (fun r => key r.2 == k) = some (id, upd a) := by
      rw [find?_keyed_map key k upd hupd, hfind]
      rfl
    rw [h1]
    constructor
    · show (Table.upsert _ key k fresh upd).1 = id
      unfold Table.upsert
      rw [hfind2]
    · show (Table.upsert _ key k fresh upd).2.rows.length = _
      unfold Table.upsert
      rw [hfind2]
      simp
  | none =>
    have h1 : t.upsert key k fresh upd
        = (t.next, { rows := t.rows ++ [(t.next, fresh)], next := t.next + 1 }) := by
      unfold Table.upsert
      rw [hfind]
    have hfind2 : (t.rows ++ [(t.next, fresh)]).find?
        (fun r => key r.2 == k) = some (t.next, fresh) := by
      rw [find?_append_of_none _ _ _ hfind]
      exact List.find?_cons_of_pos _ (beq_iff_eq.mpr hfresh)
    rw [h1]
    constructor
    · show (Table.upsert _ key k fresh upd).1 = t.next
      unfold Table.upsert
      rw [hfind2]
    · show (Table.upsert _ key k fresh upd).2.rows.length = _
      unfold Table.upsert
      rw [hfind2]
      simp

/-- C9. Idempotent upsert: for every entity kind (namespace, node,
deployment, statefulset, daemonset, pod, PVC), performing the same
upsert twice with the same uid (name for namespaces) and identical
fields returns the same id both times and leaves that table's row count
unchanged after the second call. -/
theorem idempotent_upsert (db : DB) (uid name : String) (nsID nodeID : Int)
    (depID stsID dsID : Option Int) :
    (((db.UpsertNamespace name).2.UpsertNamespace name).1
        = (db.UpsertNamespace name).1 ∧
      ((db.UpsertNamespace name).2.UpsertNamespace name).2.namespaces.rows.length
        = (db.UpsertNamespace name).2.namespaces.rows.length) ∧
    (((db.UpsertNode uid name).2.UpsertNode uid name).1
        = (db.UpsertNode uid name).1 ∧
      ((db.UpsertNode uid name).2.UpsertNode uid name).2.nodes.rows.length
        = (db.UpsertNode uid name).2.nodes.rows.length) ∧
    (((db.UpsertDeployment uid name nsID).2.UpsertDeployment uid name nsID).1
        = (db.UpsertDeployment uid name nsID).1 ∧
      ((db.UpsertDeployment uid name nsID).2.UpsertDeployment uid name
          nsID).2.deployments.rows.length
        = (db.UpsertDeployment uid name nsID).2.deployments.rows.length) ∧
    (((db.UpsertStatefulSet uid name nsID).2.UpsertStatefulSet uid name nsID).1
        = (db.UpsertStatefulSet uid name nsID).1 ∧
      ((db.UpsertStatefulSet uid name nsID).2.UpsertStatefulSet uid name
          nsID).2.statefulsets.rows.length
        = (db.UpsertStatefulSet uid name nsID).2.statefulsets.rows.length) ∧
    (((db.UpsertDaemonSet uid name nsID).2.UpsertDaemonSet uid name nsID).1
        = (db.UpsertDaemonSet uid name nsID).1 ∧
      ((db.UpsertDaemonSet uid name nsID).2.UpsertDaemonSet uid name
          nsID).2.daemonsets.rows.length
        = (db.UpsertDaemonSet uid name nsID).2.daemonsets.rows.length) ∧
    (((db.UpsertPod uid name nsID nodeID depID stsID dsID).2.UpsertPod uid
          name nsID nodeID depID stsID dsID).1
        = (db.UpsertPod uid name nsID nodeID depID stsID dsID).1 ∧
      ((db.UpsertPod uid name nsID nodeID depID stsID dsID).2.UpsertPod uid
          name nsID nodeID depID stsID dsID).2.pods.rows.length
        = (db.UpsertPod uid name nsID nodeID depID stsID dsID).2.pods.rows.length) ∧
    (((db.UpsertPVC uid name nsID).2.UpsertPVC uid name nsID).1
        = (db.UpsertPVC uid name nsID).1 ∧
      ((db.UpsertPVC uid name nsID).2.UpsertPVC uid name
          nsID).2.pvcs.rows.length
        = (db.UpsertPVC uid name nsID).2.pvcs.rows.length) := by
  refine ⟨?_, ?_, ?_, ?_, ?_, ?_, ?_⟩
  · exact Table.upsert_twice db.namespaces (fun nr => nr.name) name ⟨name⟩
      (fun nr => nr) rfl (fun a ha => ha)
  · exact Table.upsert_twice db.nodes (fun nr => nr.uid) uid ⟨uid, name⟩
      (fun nr => { nr with name := name }) rfl (fun a ha => ha)
  · exact Table.upsert_twice db.deployments (fun cr => cr.uid) uid
      ⟨uid, name, nsID⟩ (fun cr => { cr with name := name, namespace_id := nsID })
      rfl (fun a ha => ha)
  · exact Table.upsert_twice db.statefulsets (fun cr => cr.uid) uid
      ⟨uid, name, nsID⟩ (fun cr => { cr with name := name, namespace_id := nsID })
      rfl (fun a ha => ha)
  · exact Table.upsert_twice db.daemonsets (fun cr => cr.uid) uid
      ⟨uid, name, nsID⟩ (fun cr => { cr with name := name, namespace_id := nsID })
      rfl (fun a ha => ha)
  · exact Table.upsert_twice db.pods (fun pr => pr.uid) uid
      ⟨uid, name, nsID, nodeID, depID, stsID, dsID⟩
      (fun pr => { pr with
        name := name
        namespace_id := nsID
        node_id := nodeID
        deployment_id := depID
        statefulset_id := stsID
        daemonset_id := dsID })
      rfl (fun a ha => ha)
  · exact Table.upsert_twice db.pvcs (fun vr => vr.uid) uid ⟨uid, name, nsID⟩
      (fun vr => { vr with name := name, namespace_id := nsID })
      rfl (fun a ha => ha)

theorem mapGet_append_of_none (l1 l2 : List (String × Int)) (k : String)
    (h : mapGet l1 k = none) : mapGet (l1 ++ l2) k = mapGet l2 k := by
  induction l1 with
  | nil => rfl
  | cons e t ih =>
    unfold mapGet at h
    by_cases he : (e.1 == k : Bool)
    · rw [if_pos he] at h
      exact Option.noConfusion h
    · rw [if_neg he] at h
      show (if (e.1 == k) = true then some e.2 else mapGet (t ++ l2) k)
          = mapGet l2 k
      rw [if_neg he]
      exact ih h

theorem mapGet_none_any_false (l : List (String × Int)) (k : String)
    (h : mapGet l k = none) : l.any (fun e => e.1 == k) = false := by
  induction l with
  | nil => rfl
  | cons e t ih =>
    unfold mapGet at h
    by_cases he : (e.1 == k : Bool)
    · rw [if_pos he] at h
      exact Option.noConfusion h
    · rw [if_neg he] at h
      rw [List.any_cons, ih h, Bool.or_false]
      exact Bool.eq_false_iff.mpr he

theorem mapSet_of_none (l : List (String × Int)) (k : String) (v : Int)
    (h : mapGet l k = none) : mapSet l k v = l ++ [(k, v)] := by
  unfold mapSet
  rw [mapGet_none_any_false l k h]
  rfl

theorem mapGet_set_self (l : List (String × Int)) (k : String) (v : Int)
    (h : mapGet l k = none) : mapGet (mapSet l k v) k = some v := by
  rw [mapSet_of_none l k v h, mapGet_append_of_none l [(k, v)] k h]
  show (if (k == k) = true then some v else mapGet [] k) = some v
  rw [if_pos (by simp)]

/-- A `getNodeID` call whose name is already cached returns the cached
id and leaves the state untouched. -/
theorem getNodeID_cache_hit (s : Syncer) (nm uid : String) (id : Int)
    (h : mapGet s.nodes nm = some id) : s.getNodeID nm uid = (id, s) := by
  unfold Syncer.getNodeID
  rw [h]

/-- C1 (amended). Stub-to-real node reconciliation as implemented: from
a state whose node cache and nodes table have never seen `name`, the
stub path (a Pod event naming the unseen node, i.e. `getNodeID name ""`)
creates one row with uid `"stub-" + name` and caches `name → id`; the
later real Node event is then resolved entirely from the `nodes` cache:
it performs no table write (the state is unchanged, the single row for
the name keeps the stub uid rather than being updated to the real one)
and the cache binds the same id before and after; no second row for
the name is ever created. -/
theorem stub_node_reconciliation (s : Syncer) (name realUid : String)
    (hfaults : s.faults = [])
    (hcache : mapGet s.nodes name = none)
    (hstub : ∀ r ∈ s.db.nodes.rows, r.2.uid ≠ "stub-" ++ name)
    (hname : ∀ r ∈ s.db.nodes.rows, r.2.name ≠ name) :
    mapGet (s.getNodeID name "").2.nodes name
        = some (s.getNodeID name "").1 ∧
    (s.getNodeID name "").2.syncNode ⟨realUid, name⟩
        = (s.getNodeID name "").2 ∧
    mapGet ((s.getNodeID name "").2.syncNode ⟨realUid, name⟩).nodes name
        = some (s.getNodeID name "").1 ∧
    ((((s.getNodeID name "").2.syncNode ⟨realUid, name⟩).db.nodes.rows.filter
        (fun r => r.2.name == name)).map (fun r => r.2.uid))
        = ["stub-" ++ name] := by
  have hfind : s.db.nodes.rows.find?
      (fun r => r.2.uid == "stub-" ++ name) = none := by
    rw [List.find?_eq_none]
    intro x hx
    exact fun hbeq => hstub x hx (beq_iff_eq.mp hbeq)
  have huid : (if (("" : String) == "") = true then "stub-" ++ name else "")
      = "stub-" ++ name := rfl
  have h1 : s.getNodeID name ""
      = (s.db.nodes.next,
        { s with
          db := { s.db with nodes := { rows := s.db.nodes.rows ++ [(s.db.nodes.next, ⟨"stub-" ++ name, name⟩)], next := s.db.nodes.next + 1 } }
          nodes := mapSet s.nodes name s.db.nodes.next }) := by
    simp only [Syncer.getNodeID, hcache, Syncer.dbCall, hfaults,
      DB.UpsertNode, Table.upsert, huid, hfind]
  have hhit : mapGet (s.getNodeID name "").2.nodes name
      = some (s.getNodeID name "").1 := by
    rw [h1]
    exact mapGet_set_self s.nodes name _ hcache
  have h2 : (s.getNodeID name "").2.syncNode ⟨realUid, name⟩
      = (s.getNodeID name "").2 := by
    have hh := getNodeID_cache_hit (s.getNodeID name "").2 name realUid
      (s.getNodeID name "").1 hhit
    simp only [Syncer.syncNode]
    rw [hh]
  refine ⟨hhit, h2, by rw [h2]; exact hhit, ?_⟩
  rw [h2, h1]
  show ((s.db.nodes.rows
      ++ [(s.db.nodes.next, (⟨"stub-" ++ name, name⟩ : NodeRow))]).filter
      (fun r => r.2.name == name)).map (fun r => r.2.uid)
    = ["stub-" ++ name]
  rw [List.filter_append]
  have hold : s.db.nodes.rows.filter (fun r => r.2.name == name) = [] := by
    rw [List.filter_eq_nil_iff]
    intro x hx
    exact fun hbeq => hname x hx (beq_iff_eq.mp hbeq)
  rw [hold]
  simp

/-- The Pod event that triggers the stub path in the C1 counterexample. -/
def c1Pod : PodObj := ⟨"p-1", "web", "ns-a", "host-1", []⟩

/-- C1 counterexample: after the stub row is created by a Pod event,
processing the real Node event (uid `n-1`, same name) leaves the nodes
table unchanged — the single row still carries the stub uid, not the
real uid, so the real Node event does not update the row. -/
theorem stub_node_reconciliation_cex :
    ((Syncer.init.syncPod c1Pod).syncNode ⟨"n-1", "host-1"⟩).db.nodes
        = (Syncer.init.syncPod c1Pod).db.nodes ∧
    (((Syncer.init.syncPod c1Pod).syncNode ⟨"n-1", "host-1"⟩).db.nodes.rows.map
        (fun r => r.2.uid)) = ["stub-host-1"] ∧
    ("stub-host-1" : String) ≠ "n-1" ∧
    mapGet (Syncer.init.syncPod c1Pod).nodes "host-1" = some 1 ∧
    mapGet ((Syncer.init.syncPod c1Pod).syncNode ⟨"n-1", "host-1"⟩).nodes
        "host-1" = some 1 :=
  ⟨rfl, by decide, by decide, by decide, by decide⟩

/-- Witness for C1 (amended) at the initial state. -/
theorem stub_node_reconciliation_witness :
    (Syncer.init.faults = [] ∧
      mapGet Syncer.init.nodes "host-1" = none ∧
      (∀ r ∈ Syncer.init.db.nodes.rows, r.2.uid ≠ "stub-" ++ "host-1") ∧
      (∀ r ∈ Syncer.init.db.nodes.rows, r.2.name ≠ "host-1")) ∧
    (mapGet (Syncer.init.getNodeID "host-1" "").2.nodes "host-1"
        = some (Syncer.init.getNodeID "host-1" "").1 ∧
      (Syncer.init.getNodeID "host-1" "").2.syncNode ⟨"n-1", "host-1"⟩
        = (Syncer.init.getNodeID "host-1" "").2 ∧
      mapGet ((Syncer.init.getNodeID "host-1" "").2.syncNode
          ⟨"n-1", "host-1"⟩).nodes "host-1"
        = some (Syncer.init.getNodeID "host-1" "").1 ∧
      ((((Syncer.init.getNodeID "host-1" "").2.syncNode
          ⟨"n-1", "host-1"⟩).db.nodes.rows.filter
            (fun r => r.2.name == "host-1")).map (fun r => r.2.uid))
        = ["stub-" ++ "host-1"]) :=
  ⟨⟨rfl, rfl,
      fun r hr => absurd hr (by simp [Syncer.init, DB.empty, Table.empty]),
      fun r hr => absurd hr (by simp [Syncer.init, DB.empty, Table.empty])⟩,
    stub_node_reconciliation Syncer.init "host-1" "n-1" rfl rfl
      (fun r hr => absurd hr (by simp [Syncer.init, DB.empty, Table.empty]))
      (fun r hr => absurd hr (by simp [Syncer.init, DB.empty, Table.empty]))⟩

theorem getNamespaceID_preserves (s : Syncer) (nm : String) :
    (s.getNamespaceID nm).2.db.pods = s.db.pods ∧
    (s.getNamespaceID nm).2.pods = s.pods := by
  unfold Syncer.getNamespaceID
  cases hl : mapGet s.namespaces nm with
  | some id => exact ⟨rfl, rfl⟩
  | none =>
    unfold Syncer.dbCall
    cases hf : s.faults with
    | nil => exact ⟨rfl, rfl⟩
    | cons b rest => cases b <;> exact ⟨rfl, rfl⟩

theorem getNodeID_preserves (s : Syncer) (nm uid : String) :
    (s.getNodeID nm uid).2.db.pods = s.db.pods ∧
    (s.getNodeID nm uid).2.pods = s.pods := by
  unfold Syncer.getNodeID
  cases hl : mapGet s.nodes nm with
  | some id => exact ⟨rfl, rfl⟩
  | none =>
    unfold Syncer.dbCall
    cases hf : s.faults with
    | nil => exact ⟨rfl, rfl⟩
    | cons b rest => cases b <;> exact ⟨rfl, rfl⟩

/-- Every row of an upserted table satisfies `P` whenever the existing
rows do, the fresh row does, and the update always re-establishes it. -/
theorem Table.upsert_rows_pred {α : Type} (t : Table α) (key : α → String)
    (k : String) (fresh : α) (upd : α → α) (P : α → Prop)
    (hrows : ∀ r ∈ t.rows, P r.2) (hfresh : P fresh)
    (hupd : ∀ a, P (upd a)) :
    ∀ r ∈ (t.upsert key k fresh upd).2.rows, P r.2 := by
  intro r hr
  unfold Table.upsert at hr
  split at hr
  · obtain ⟨x, hx, hxeq⟩ := List.mem_map.mp hr
    by_cases hk : (key x.2 == k : Bool)
    · rw [if_pos hk] at hxeq
      rw [← hxeq]
      exact hupd x.2
    · rw [if_neg hk] at hxeq
      rw [← hxeq]
      exact hrows x hx
  · rcases List.mem_append.mp hr with hold | hnew
    · exact hrows r hold
    · rw [List.mem_singleton.mp hnew]
      exact hfresh

/-- C6 (amended). Pod upsert precondition: a Pod row is never written
with unresolved `namespace_id` or `node_id` (the nonzero invariant on
the pods table is preserved by every Pod event); on each of the three
skip conditions — namespace resolution 0, unset `spec.node_name`, node
resolution 0 — the pods table and the pods cache are left unchanged.
(Namespace and stub-node resolution may still create their own rows and
cache entries before the skip, so the Identity Store as a whole is not
necessarily unchanged.) -/
theorem pod_upsert_guard (s : Syncer) (pod : PodObj)
    (hinv : ∀ r ∈ s.db.pods.rows,
      r.2.namespace_id ≠ 0 ∧ r.2.node_id ≠ 0) :
    (∀ r ∈ (s.syncPod pod).db.pods.rows,
      r.2.namespace_id ≠ 0 ∧ r.2.node_id ≠ 0) ∧
    ((s.getNamespaceID pod.nsName).1 = 0 →
      (s.syncPod pod).db.pods = s.db.pods ∧
      (s.syncPod pod).pods = s.pods) ∧
    (pod.nodeName = "" →
      (s.syncPod pod).db.pods = s.db.pods ∧
      (s.syncPod pod).pods = s.pods) ∧
    (pod.nodeName ≠ "" →
      ((s.getNamespaceID pod.nsName).2.getNodeID pod.nodeName "").1 = 0 →
      (s.syncPod pod).db.pods = s.db.pods ∧
      (s.syncPod pod).pods = s.pods) := by
  have hp1 := getNamespaceID_preserves s pod.nsName
  by_cases hns : ((s.getNamespaceID pod.nsName).1 == 0 : Bool)
  · have hA : s.syncPod pod = (s.getNamespaceID pod.nsName).2 := by
      simp only [Syncer.syncPod]
      rw [if_pos hns]
    have hdbp : (s.syncPod pod).db.pods = s.db.pods := by rw [hA, hp1.1]
    have hcp : (s.syncPod pod).pods = s.pods := by rw [hA, hp1.2]
    refine ⟨?_, fun _ => ⟨hdbp, hcp⟩, fun _ => ⟨hdbp, hcp⟩,
      fun _ _ => ⟨hdbp, hcp⟩⟩
    rw [hdbp]
    exact hinv
  · by_cases hnn : (pod.nodeName != "" : Bool)
    · have hp2 := getNodeID_preserves (s.getNamespaceID pod.nsName).2
        pod.nodeName ""
      have hinv2 : ∀ r ∈ ((s.getNamespaceID pod.nsName).2.getNodeID
          pod.nodeName "").2.db.pods.rows,
          r.2.namespace_id ≠ 0 ∧ r.2.node_id ≠ 0 := by
        rw [hp2.1, hp1.1]
        exact hinv
      by_cases hnd : (((s.getNamespaceID pod.nsName).2.getNodeID
          pod.nodeName "").1 == 0 : Bool)
      · have hC : s.syncPod pod
            = ((s.getNamespaceID pod.nsName).2.getNodeID pod.nodeName "").2 := by
          simp only [Syncer.syncPod]
          rw [if_neg hns, if_pos hnn, if_pos hnd]
        have hdbp : (s.syncPod pod).db.pods = s.db.pods := by
          rw [hC, hp2.1, hp1.1]
        have hcp : (s.syncPod pod).pods = s.pods := by
          rw [hC, hp2.2, hp1.2]
        refine ⟨?_, fun _ => ⟨hdbp, hcp⟩, fun _ => ⟨hdbp, hcp⟩,
          fun _ _ => ⟨hdbp, hcp⟩⟩
        rw [hdbp]
        exact hinv
      · have hns0 : ¬ (s.getNamespaceID pod.nsName).1 = 0 :=
          fun h0 => hns (beq_iff_eq.mpr h0)
        have hnn0 : pod.nodeName ≠ "" := bne_iff_ne.mp hnn
        have hnd0 : ¬ ((s.getNamespaceID pod.nsName).2.getNodeID
            pod.nodeName "").1 = 0 :=
          fun h0 => hnd (beq_iff_eq.mpr h0)
        refine ⟨?_, fun h0 => absurd h0 hns0, fun h0 => absurd h0 hnn0,
          fun _ h0 => absurd h0 hnd0⟩
        have hup : ∀ r ∈ (((s.getNamespaceID pod.nsName).2.getNodeID
            pod.nodeName "").2.db.pods.upsert (fun pr => pr.uid) pod.uid
              ⟨pod.uid, pod.name, (s.getNamespaceID pod.nsName).1,
                ((s.getNamespaceID pod.nsName).2.getNodeID pod.nodeName "").1,
                (((s.getNamespaceID pod.nsName).2.getNodeID
                    pod.nodeName "").2.resolveOwners pod.ownerReferences).1,
                (((s.getNamespaceID pod.nsName).2.getNodeID
                    pod.nodeName "").2.resolveOwners pod.ownerReferences).2.1,
                (((s.getNamespaceID pod.nsName).2.getNodeID
                    pod.nodeName "").2.resolveOwners pod.ownerReferences).2.2⟩
              (fun pr => { pr with
                name := pod.name
                namespace_id := (s.getNamespaceID pod.nsName).1
                node_id := ((s.getNamespaceID pod.nsName).2.getNodeID
                  pod.nodeName "").1
                deployment_id := (((s.getNamespaceID pod.nsName).2.getNodeID
                  pod.nodeName "").2.resolveOwners pod.ownerReferences).1
                statefulset_id := (((s.getNamespaceID pod.nsName).2.getNodeID
                  pod.nodeName "").2.resolveOwners pod.ownerReferences).2.1
                daemonset_id := (((s.getNamespaceID pod.nsName).2.getNodeID
                  pod.nodeName "").2.resolveOwners
                    pod.ownerReferences).2.2 })).2.rows,
            r.2.namespace_id ≠ 0 ∧ r.2.node_id ≠ 0 :=
          Table.upsert_rows_pred _ _ _ _ _
            (fun pr : PodDbRow => pr.namespace_id ≠ 0 ∧ pr.node_id ≠ 0) hinv2
            ⟨hns0, hnd0⟩ (fun _ => ⟨hns0, hnd0⟩)
        intro r hr
        simp only [Syncer.syncPod] at hr
        rw [if_neg hns, if_pos hnn, if_neg hnd] at hr
        unfold Syncer.dbCall at hr
        cases hfa : ((s.getNamespaceID pod.nsName).2.getNodeID
            pod.nodeName "").2.faults with
        | nil =>
          rw [hfa] at hr
          exact hup r hr
        | cons b rest =>
          rw [hfa] at hr
          cases b with
          | true => exact hinv2 r hr
          | false => exact hup r hr
    · have hB : s.syncPod pod = (s.getNamespaceID pod.nsName).2 := by
        simp only [Syncer.syncPod]
        rw [if_neg hns, if_neg hnn]
      have hdbp : (s.syncPod pod).db.pods = s.db.pods := by rw [hB, hp1.1]
      have hcp : (s.syncPod pod).pods = s.pods := by rw [hB, hp1.2]
      refine ⟨?_, fun _ => ⟨hdbp, hcp⟩, fun _ => ⟨hdbp, hcp⟩,
        fun _ _ => ⟨hdbp, hcp⟩⟩
      rw [hdbp]
      exact hinv

/-- The unscheduled Pod of the C6 counterexample (empty node name,
fresh namespace). -/
def c6Pod : PodObj := ⟨"p-1", "web", "ns-a", "", []⟩

/-- C6 counterexample: the unscheduled-Pod skip leaves the pods table
and cache untouched, but the Identity Store is not unchanged — the
namespace row for `ns-a` was created before the skip. -/
theorem pod_upsert_guard_cex :
    c6Pod.nodeName = "" ∧
    (Syncer.init.syncPod c6Pod).db.pods.rows = [] ∧
    (Syncer.init.syncPod c6Pod).pods = [] ∧
    Syncer.init.db.namespaces.rows.length = 0 ∧
    (Syncer.init.syncPod c6Pod).db.namespaces.rows.length = 1 :=
  ⟨rfl, rfl, rfl, rfl, rfl⟩

/-- Witness for C6 (amended): the empty pods table trivially satisfies
the invariant; the unscheduled Pod hits the second skip case. -/
theorem pod_upsert_guard_witness :
    (∀ r ∈ Syncer.init.db.pods.rows,
      r.2.namespace_id ≠ 0 ∧ r.2.node_id ≠ 0) ∧
    c6Pod.nodeName = "" ∧
    ((∀ r ∈ (Syncer.init.syncPod c6Pod).db.pods.rows,
        r.2.namespace_id ≠ 0 ∧ r.2.node_id ≠ 0) ∧
      ((Syncer.init.getNamespaceID c6Pod.nsName).1 = 0 →
        (Syncer.init.syncPod c6Pod).db.pods = Syncer.init.db.pods ∧
        (Syncer.init.syncPod c6Pod).pods = Syncer.init.pods) ∧
      (c6Pod.nodeName = "" →
        (Syncer.init.syncPod c6Pod).db.pods = Syncer.init.db.pods ∧
        (Syncer.init.syncPod c6Pod).pods = Syncer.init.pods) ∧
      (c6Pod.nodeName ≠ "" →
        ((Syncer.init.getNamespaceID c6Pod.nsName).2.getNodeID
            c6Pod.nodeName "").1 = 0 →
        (Syncer.init.syncPod c6Pod).db.pods = Syncer.init.db.pods ∧
        (Syncer.init.syncPod c6Pod).pods = Syncer.init.pods)) :=
  have hinv0 : ∀ r ∈ Syncer.init.db.pods.rows,
      r.2.namespace_id ≠ 0 ∧ r.2.node_id ≠ 0 :=
    fun r hr => absurd hr (by simp [Syncer.init, DB.empty, Table.empty])
  ⟨hinv0, rfl, pod_upsert_guard Syncer.init c6Pod hinv0⟩

end Vitakube
